import Mathlib

set_option linter.unusedVariables false

/-!
Shallow embedding of the vitistack/common logging pipeline
(`pkg/loggers/vlog/vlog.go`) and of the `pkg/serialize` helpers it calls.

Go byte slices are modelled as `List Char` (every input of interest is
ASCII), Go strings as `String`, Go `any` values at the logging boundary as
the inductive `GoVal`, and `slog.Level` as `Int` with the standard slog
constants (debug = -4, info = 0, warn = 4, error = 8).  Recursive helpers
that walk arbitrarily nested values or scan with a moving cursor take an
explicit fuel argument; the wrappers supply fuel that provably dominates
the recursion depth, so the fuel-exhaustion branch is unreachable on the
wrappers' calls.
-/

/-- Dynamic Go values as they cross the logging API (`...any` arguments).
`vChan` models a value `encoding/json` cannot serialize (such as a channel);
it carries the Go type name used in the marshal error and the text that
`fmt`'s verb `%v` would print for it.  `vPretty` models the `prettyValue`
marker struct.  `vObj` models `map[string]any` and struct-shaped records. -/
inductive GoVal where
  | vNull : GoVal
  | vBool : Bool → GoVal
  | vInt : Int → GoVal
  | vStr : String → GoVal
  | vArr : List GoVal → GoVal
  | vObj : List (String × GoVal) → GoVal
  | vChan : String → String → GoVal
  | vPretty : GoVal → GoVal

/-- Two-digit lowercase hex rendering of a byte value, for escape sequences. -/
def toHex2 (n : Nat) : String :=
  let dig := fun (d : Nat) => String.singleton (if d < 10 then Char.ofNat (48 + d) else Char.ofNat (87 + d))
  dig (n / 16 % 16) ++ dig (n % 16)

/-- Four-digit lowercase hex rendering, for `\uXXXX` escapes. -/
def toHex4 (n : Nat) : String :=
  toHex2 (n / 256 % 256) ++ toHex2 (n % 256)

/-- JSON string quoting as performed by `encoding/json` (including the
HTML-safe escaping of `<`, `>` and `&` that `json.Marshal` applies). -/
def jsonQuoteChar (c : Char) : String :=
  if c = '"' then "\\\""
  else if c = '\\' then "\\\\"
  else if c = '\n' then "\\n"
  else if c = '\r' then "\\r"
  else if c = '\t' then "\\t"
  else if c = '<' then "\\u003c"
  else if c = '>' then "\\u003e"
  else if c = '&' then "\\u0026"
  else if c.toNat < 32 then "\\u" ++ toHex4 c.toNat
  else String.singleton c

/-- JSON-quote a whole string. -/
def jsonQuote (s : String) : String :=
  "\"" ++ String.join (s.data.map jsonQuoteChar) ++ "\""

/-- Insertion of one keyed item into a key-sorted list (`encoding/json`
marshals Go maps with their keys in sorted order). -/
def insertByKey (p : String × α) : List (String × α) → List (String × α)
  | [] => [p]
  | q :: rest => if p.1 < q.1 then p :: q :: rest else q :: insertByKey p rest

/-- Key-sorted copy of an association list. -/
def sortByKey : List (String × α) → List (String × α)
  | [] => []
  | p :: rest => insertByKey p (sortByKey rest)

/-- Marshalling mode: `none` is compact `json.Marshal`; `some (pfx, indent)`
is `json.MarshalIndent` output positioned at prefix `pfx`. -/
abbrev JsonMode := Option (String × String)

/-- Join already-rendered array elements the way `encoding/json` lays them out. -/
def jsonWrapArr (mode : JsonMode) (parts : List String) : String :=
  match mode with
  | none => "[" ++ String.intercalate "," parts ++ "]"
  | some (pfx, ind) =>
      "[\n" ++ String.intercalate ",\n" (parts.map (fun p => pfx ++ ind ++ p)) ++ "\n" ++ pfx ++ "]"

/-- Join already-rendered object fields the way `encoding/json` lays them out. -/
def jsonWrapObj (mode : JsonMode) (parts : List (String × String)) : String :=
  match mode with
  | none =>
      "\x7b" ++ String.intercalate "," (parts.map (fun p => jsonQuote p.1 ++ ":" ++ p.2)) ++ "\x7d"
  | some (pfx, ind) =>
      "\x7b\n" ++
        String.intercalate ",\n" (parts.map (fun p => pfx ++ ind ++ jsonQuote p.1 ++ ": " ++ p.2)) ++
        "\n" ++ pfx ++ "\x7d"

/-- One nesting step of the marshalling mode. -/
def jsonModeStep (mode : JsonMode) : JsonMode :=
  match mode with
  | none => none
  | some (pfx, ind) => some (pfx ++ ind, ind)

/-- `mapM` over `Except` for a list of values, used by the marshaller to
propagate the first serialization error outward exactly as `json.Marshal` does. -/
def exceptMap (f : α → Except String β) : List α → Except String (List β)
  | [] => Except.ok []
  | a :: rest => do
      let b ← f a
      let bs ← exceptMap f rest
      Except.ok (b :: bs)

/-- Models `encoding/json` marshalling of a `GoVal` (both `json.Marshal` and
`json.MarshalIndent`, selected by `mode`).  A channel value makes the whole
marshal fail with `json: unsupported type: ...`, propagated from any nesting
depth; map keys are emitted in sorted order; a `prettyValue` (struct with no
exported fields) marshals to `{}` (written here with escaped braces).
Fuel bounds the nesting depth; the wrappers pass `sizeOf v + 1 ≥ depth`. -/
def goMarshalF : Nat → JsonMode → GoVal → Except String String
  | 0, _, _ => Except.error "json: depth exhausted"
  | f + 1, mode, v =>
    match v with
    | .vNull => Except.ok "null"
    | .vBool b => Except.ok (if b then "true" else "false")
    | .vInt n => Except.ok (toString n)
    | .vStr s => Except.ok (jsonQuote s)
    | .vChan ty _ => Except.error ("json: unsupported type: " ++ ty)
    | .vPretty _ => Except.ok "\x7b\x7d"
    | .vArr [] => Except.ok "[]"
    | .vArr l => do
        let parts ← exceptMap (goMarshalF f (jsonModeStep mode)) l
        Except.ok (jsonWrapArr mode parts)
    | .vObj [] => Except.ok "\x7b\x7d"
    | .vObj fields => do
        let parts ← exceptMap
          (fun p => (goMarshalF f (jsonModeStep mode) p.2).map (fun s => (p.1, s)))
          fields
        Except.ok (jsonWrapObj mode (sortByKey parts))

mutual

/-- Executable size of a `GoVal`, dominating the recursion depth of every
fuel-driven helper below. -/
def goValSize : GoVal → Nat
  | .vNull => 1
  | .vBool _ => 1
  | .vInt _ => 1
  | .vStr _ => 1
  | .vChan _ _ => 1
  | .vPretty v => goValSize v + 1
  | .vArr l => goValListSize l + 1
  | .vObj fields => goValFieldsSize fields + 1

/-- Size of a list of `GoVal`s. -/
def goValListSize : List GoVal → Nat
  | [] => 0
  | v :: rest => goValSize v + goValListSize rest + 1

/-- Size of an association list of `GoVal`s. -/
def goValFieldsSize : List (String × GoVal) → Nat
  | [] => 0
  | p :: rest => goValSize p.2 + goValFieldsSize rest + 1

end

/-- `json.Marshal(v)`. -/
def jsonMarshal (v : GoVal) : Except String String :=
  goMarshalF (goValSize v + 1) none v

/-- `json.MarshalIndent(v, "", indent)`. -/
def jsonMarshalIndentGo (v : GoVal) (indent : String) : Except String String :=
  goMarshalF (goValSize v + 1) (some ("", indent)) v

/-- Generic JSON values as produced by `json.Unmarshal` into `any`.
Number tokens are kept as their source text. -/
inductive JsonVal where
  | jNull : JsonVal
  | jBool : Bool → JsonVal
  | jNum : String → JsonVal
  | jStr : String → JsonVal
  | jArr : List JsonVal → JsonVal
  | jObj : List (String × JsonVal) → JsonVal

/-- Re-rendering of a parsed JSON value, modelling `json.MarshalIndent` on the
result of `json.Unmarshal` (sorted object keys, 2-space style layout driven by
`mode`). -/
def jsonRenderF : Nat → JsonMode → JsonVal → String
  | 0, _, _ => ""
  | f + 1, mode, v =>
    match v with
    | .jNull => "null"
    | .jBool b => if b then "true" else "false"
    | .jNum raw => raw
    | .jStr s => jsonQuote s
    | .jArr [] => "[]"
    | .jArr l => jsonWrapArr mode (l.map (jsonRenderF f (jsonModeStep mode)))
    | .jObj [] => "\x7b\x7d"
    | .jObj fields =>
        jsonWrapObj mode (sortByKey (fields.map (fun p => (p.1, jsonRenderF f (jsonModeStep mode) p.2))))

mutual

/-- Executable size of a `JsonVal`, dominating the render recursion depth. -/
def jsonSize : JsonVal → Nat
  | .jNull => 1
  | .jBool _ => 1
  | .jNum _ => 1
  | .jStr _ => 1
  | .jArr l => jsonListSize l + 1
  | .jObj fields => jsonFieldsSize fields + 1

/-- Size of a list of `JsonVal`s. -/
def jsonListSize : List JsonVal → Nat
  | [] => 0
  | v :: rest => jsonSize v + jsonListSize rest + 1

/-- Size of an association list of `JsonVal`s. -/
def jsonFieldsSize : List (String × JsonVal) → Nat
  | [] => 0
  | p :: rest => jsonSize p.2 + jsonFieldsSize rest + 1

end

/-- Whitespace skipping for the JSON reader. -/
def skipWs : List Char → List Char
  | [] => []
  | c :: rest => if c = ' ' ∨ c = '\t' ∨ c = '\n' ∨ c = '\r' then skipWs rest else c :: rest

/-- Hex digit value, `none` on a non-hex character. -/
def hexVal (c : Char) : Option Nat :=
  if '0' ≤ c ∧ c ≤ '9' then some (c.toNat - 48)
  else if 'a' ≤ c ∧ c ≤ 'f' then some (c.toNat - 87)
  else if 'A' ≤ c ∧ c ≤ 'F' then some (c.toNat - 55)
  else none

/-- String-body reader for the JSON parser: consumes up to the closing quote,
decoding the standard escapes (`\uXXXX` decoded as a single code point). -/
def parseJsonString : List Char → Option (String × List Char)
  | [] => none
  | c :: rest =>
    if c = '"' then some ("", rest)
    else if c = '\\' then
      match rest with
      | [] => none
      | e :: rest2 =>
        if e = 'u' then
          match rest2 with
          | h1 :: h2 :: h3 :: h4 :: rest3 => do
              let d1 ← hexVal h1
              let d2 ← hexVal h2
              let d3 ← hexVal h3
              let d4 ← hexVal h4
              let (tail, rem) ← parseJsonString rest3
              some (String.singleton (Char.ofNat (((d1 * 16 + d2) * 16 + d3) * 16 + d4)) ++ tail, rem)
          | _ => none
        else do
          let decoded :=
            if e = 'n' then '\n'
            else if e = 't' then '\t'
            else if e = 'r' then '\r'
            else if e = 'b' then Char.ofNat 8
            else if e = 'f' then Char.ofNat 12
            else e
          let (tail, rem) ← parseJsonString rest2
          some (String.singleton decoded ++ tail, rem)
    else do
      let (tail, rem) ← parseJsonString rest
      some (String.singleton c ++ tail, rem)

/-- Number-token reader: consumes the longest run of characters that can occur
in a JSON number literal and keeps it as text. -/
def parseJsonNumTail : List Char → (String × List Char)
  | [] => ("", [])
  | c :: rest =>
    if ('0' ≤ c ∧ c ≤ '9') ∨ c = '-' ∨ c = '+' ∨ c = '.' ∨ c = 'e' ∨ c = 'E' then
      let (tok, rem) := parseJsonNumTail rest
      (String.singleton c ++ tok, rem)
    else ("", c :: rest)

/-- Literal-prefix test for the parser. -/
def takesPrefix (pat : List Char) (l : List Char) : Option (List Char) :=
  match pat, l with
  | [], rest => some rest
  | _ :: _, [] => none
  | p :: ps, c :: cs => if c = p then takesPrefix ps cs else none

mutual

/-- Recursive-descent JSON value reader modelling `json.Unmarshal` into `any`.
Returns the parsed value and the unconsumed input; `none` on a syntax error.
Fuel bounds the nesting depth. -/
def parseJsonF : Nat → List Char → Option (JsonVal × List Char)
  | 0, _ => none
  | f + 1, l =>
    match skipWs l with
    | [] => none
    | c :: rest =>
      if c = '"' then
        match parseJsonString rest with
        | some (s, rem) => some (.jStr s, rem)
        | none => none
      else if c = '\x7b' then
        parseJsonObj f (skipWs rest) true
      else if c = '[' then
        parseJsonArr f (skipWs rest) true
      else if c = 'n' then
        match takesPrefix ['u', 'l', 'l'] rest with
        | some rem => some (.jNull, rem)
        | none => none
      else if c = 't' then
        match takesPrefix ['r', 'u', 'e'] rest with
        | some rem => some (.jBool true, rem)
        | none => none
      else if c = 'f' then
        match takesPrefix ['a', 'l', 's', 'e'] rest with
        | some rem => some (.jBool false, rem)
        | none => none
      else if ('0' ≤ c ∧ c ≤ '9') ∨ c = '-' then
        let (tok, rem) := parseJsonNumTail rest
        some (.jNum (String.singleton c ++ tok), rem)
      else none

/-- Object-body reader; `first` marks that no field has been consumed yet. -/
def parseJsonObj : Nat → List Char → Bool → Option (JsonVal × List Char)
  | 0, _, _ => none
  | f + 1, l, first =>
    match l with
    | '\x7d' :: rest => if first then some (.jObj [], rest) else none
    | _ =>
      match parseJsonFieldList f l with
      | some (fields, rem) => some (.jObj fields, rem)
      | none => none

/-- One-or-more comma-separated `"key": value` fields, then the closing brace. -/
def parseJsonFieldList : Nat → List Char → Option (List (String × JsonVal) × List Char)
  | 0, _ => none
  | f + 1, l =>
    match skipWs l with
    | '"' :: rest =>
      match parseJsonString rest with
      | some (key, rem) =>
        (match skipWs rem with
         | ':' :: rem2 =>
           match parseJsonF f rem2 with
           | some (v, rem3) =>
             (match skipWs rem3 with
              | ',' :: rem4 =>
                (match parseJsonFieldList f rem4 with
                 | some (fields, rem5) => some ((key, v) :: fields, rem5)
                 | none => none)
              | '\x7d' :: rem4 => some ([(key, v)], rem4)
              | _ => none)
           | none => none
         | _ => none)
      | none => none
    | _ => none

/-- Array-body reader; `first` marks that no element has been consumed yet. -/
def parseJsonArr : Nat → List Char → Bool → Option (JsonVal × List Char)
  | 0, _, _ => none
  | f + 1, l, first =>
    match l with
    | ']' :: rest => if first then some (.jArr [], rest) else none
    | _ =>
      match parseJsonElemList f l with
      | some (elems, rem) => some (.jArr elems, rem)
      | none => none

/-- One-or-more comma-separated array elements, then the closing bracket. -/
def parseJsonElemList : Nat → List Char → Option (List JsonVal × List Char)
  | 0, _ => none
  | f + 1, l =>
    match parseJsonF f l with
    | some (v, rem) =>
      (match skipWs rem with
       | ',' :: rem2 =>
         (match parseJsonElemList f rem2 with
          | some (elems, rem3) => some (v :: elems, rem3)
          | none => none)
       | ']' :: rem2 => some ([v], rem2)
       | _ => none)
    | none => none

end

/-- Models `reformatJSONBytes` from `vlog.go`: `json.Unmarshal` the whole
input and, on success, `json.MarshalIndent(..., "", "  ")` it back.  Like
`json.Unmarshal`, trailing non-whitespace input is a failure. -/
def reformatJSONString (s : String) : Option String :=
  match parseJsonF (s.length + 1) s.data with
  | some (v, rem) =>
      if (skipWs rem).isEmpty then some (jsonRenderF (jsonSize v + 1) (some ("", "  ")) v)
      else none
  | none => none

/-- `strings.Repeat(s, n)` for a natural count. -/
def stringsRepeat (s : String) (n : Nat) : String :=
  String.join (List.replicate n s)

/-- Whitespace class of `strings.TrimSpace` (ASCII range). -/
def isGoSpace (c : Char) : Bool :=
  c = ' ' ∨ c = '\t' ∨ c = '\n' ∨ c = '\r' ∨ c.toNat = 11 ∨ c.toNat = 12

/-- Models `strings.TrimSpace`. -/
def stringTrim (s : String) : String :=
  String.mk (((s.data.dropWhile isGoSpace).reverse.dropWhile isGoSpace).reverse)

/-- Models `strings.HasPrefix`. -/
def strStartsWith (s pat : String) : Bool := pat.data.isPrefixOf s.data

/-- Models `strings.HasSuffix`. -/
def strEndsWith (s pat : String) : Bool := pat.data.reverse.isPrefixOf s.data.reverse

/-- Models `looksLikeYAML` from `vlog.go`: not JSON-brace/bracket-prefixed,
and a colon appears at a positive index within the first 80 bytes. -/
def looksLikeYAML (s : String) : Bool :=
  if strStartsWith s "\x7b" || strStartsWith s "[" then false
  else
    let colon := s.data.indexOf ':'
    decide (0 < colon ∧ colon < 80 ∧ colon < s.data.length)

/-- Models `reformatYAMLBytes` from `vlog.go`.  The YAML round-trip is done by
the external `gopkg.in/yaml.v3` dependency, outside this repository and outside
every claim; it is modelled as never succeeding, which only affects the
YAML-guess fallback branch of the `Pretty` marker's rendering. -/
def reformatYAMLString (s : String) : Option String := none

/-- Models `yaml.Marshal` as called by `prettyValue.String`.  In the source it
is attempted only after `json.MarshalIndent` failed, i.e. on channel-like
values, which the external YAML library rejects as well; it is modelled as
always failing. -/
def yamlMarshalModel (v : GoVal) : Except String String :=
  Except.error "yaml: cannot marshal value"

mutual

/-- Models `fmt`'s `%v` rendering of a `GoVal` (used by `fmt.Sprint`).
Maps print sorted by key, as Go's `fmt` does; a `prettyValue` prints through
its `String() string` method. -/
def goToStringF : Nat → GoVal → String
  | 0, _ => ""
  | f + 1, v =>
    match v with
    | .vNull => "<nil>"
    | .vBool b => if b then "true" else "false"
    | .vInt n => toString n
    | .vStr s => s
    | .vChan _ rep => rep
    | .vPretty inner => prettyValueStringF f inner
    | .vArr l => "[" ++ String.intercalate " " (l.map (goToStringF f)) ++ "]"
    | .vObj fields =>
        "map[" ++
          String.intercalate " " ((sortByKey fields).map (fun p => p.1 ++ ":" ++ goToStringF f p.2)) ++
          "]"

/-- Models `prettyValue.String` from `vlog.go`: `nil` prints `null`; a string
is JSON-reformatted when it looks like JSON, else YAML-reformatted when it
looks like YAML, else returned as-is; any other value tries
`json.MarshalIndent`, then `yaml.Marshal`, then falls back to `fmt`'s verbose
formatting. -/
def prettyValueStringF : Nat → GoVal → String
  | 0, _ => ""
  | f + 1, v =>
    match v with
    | .vNull => "null"
    | .vStr s =>
      let trimmed := stringTrim s
      let jsonTry :=
        if strStartsWith trimmed "\x7b" || strStartsWith trimmed "[" then reformatJSONString trimmed
        else none
      (match jsonTry with
       | some pretty => pretty
       | none =>
         match (if looksLikeYAML trimmed then reformatYAMLString trimmed else none) with
         | some pretty => pretty
         | none => s)
    | _ =>
      match jsonMarshalIndentGo v "  " with
      | .ok out => out
      | .error _ =>
        match yamlMarshalModel v with
        | .ok out => out
        | .error _ => goToStringF f v

end

/-- Fuel that dominates the `%v`/`Pretty`-marker rendering depth: each value
layer consumes at most two fuel steps. -/
def goFuel (v : GoVal) : Nat := 2 * goValSize v + 2

/-- `fmt.Sprint` of a single value (`%v`). -/
def goToString (v : GoVal) : String := goToStringF (goFuel v) v

/-- `prettyValue{v}.String()`. -/
def prettyValueString (v : GoVal) : String := prettyValueStringF (goFuel v) v

namespace Serialize

/-- Models `fallback` from `pkg/serialize`:
`fmt.Sprintf("%v (serialize error: %v)", v, err)`. -/
def fallback (v : GoVal) (e : String) : String :=
  goToString v ++ " (serialize error: " ++ e ++ ")"

/-- Models `serialize.JSON`: compact `json.Marshal`, falling back on error. -/
def JSON (v : GoVal) : String :=
  match jsonMarshal v with
  | .ok s => s
  | .error e => fallback v e

/-- Models `serialize.JSONIndent`: `json.MarshalIndent(v, "", indent)`,
falling back on error. -/
def JSONIndent (v : GoVal) (indent : String) : String :=
  match jsonMarshalIndentGo v indent with
  | .ok s => s
  | .error e => fallback v e

/-- Models `serialize.JSONIndentN`: `n <= 0` defaults to 2 spaces. -/
def JSONIndentN (v : GoVal) (n : Int) : String :=
  JSONIndent v (stringsRepeat " " (Int.toNat (if n ≤ 0 then 2 else n)))

/-- Models `serialize.Pretty`, the alias for `JSONIndentN(v, 2)`. -/
def Pretty (v : GoVal) : String := JSONIndentN v 2

end Serialize

/-- Models `isStructType` from `vlog.go`: basic scalar types are not structs;
otherwise the value is struct-like when `json.Marshal` succeeds and the
trimmed output starts with an opening brace. -/
def isStructType (v : GoVal) : Bool :=
  match v with
  | .vNull => false
  | .vStr _ => false
  | .vInt _ => false
  | .vBool _ => false
  | _ =>
    match jsonMarshal v with
    | .ok s => strStartsWith (stringTrim s) "\x7b"
    | .error _ => false

/-- Models `autoFormatJSON` from `vlog.go` (the AutoFormatter): `nil` passes
through; a `prettyValue` is left alone; a string that looks like a JSON object
or array is reformatted with 2-space indent on parse success; container values
are replaced by their `serialize.Pretty` text; struct-like values likewise;
everything else passes through unchanged. -/
def autoFormatJSON (v : GoVal) : GoVal :=
  match v with
  | .vNull => .vNull
  | .vPretty _ => v
  | .vStr s =>
    let trimmed := stringTrim s
    if (strStartsWith trimmed "\x7b" && strEndsWith trimmed "\x7d") ||
       (strStartsWith trimmed "[" && strEndsWith trimmed "]") then
      match reformatJSONString trimmed with
      | some pretty => .vStr pretty
      | none => v
    else v
  | .vArr _ => .vStr (Serialize.Pretty v)
  | .vObj _ => .vStr (Serialize.Pretty v)
  | _ => if isStructType v then .vStr (Serialize.Pretty v) else v

/-- String test used by `fmt.Sprint`'s operand-separation rule. -/
def isStrVal : GoVal → Bool
  | .vStr _ => true
  | _ => false

/-- Models `fmt.Sprint(args...)`: operands are concatenated, with a space
added between two adjacent operands only when neither is a string. -/
def goSprint : List GoVal → String
  | [] => ""
  | [a] => goToString a
  | a :: b :: rest =>
      goToString a ++ (if isStrVal a || isStrVal b then "" else " ") ++ goSprint (b :: rest)

/-- Models the key extraction in `writeRecordWithAttrs`:
`key, _ := kvs[i].(string); if key == "" { key = fmt.Sprint(kvs[i]) }`
(`fmt.Sprint` of the empty string is again the empty string). -/
def goKey : GoVal → String
  | .vStr s => s
  | v => goSprint [v]

/-- Models the odd-length normalization in `convertKVs`: an odd list gets the
placeholder value `"<missing>"` appended. -/
def padKVs (kv : List GoVal) : List GoVal :=
  if kv.length % 2 = 1 then kv ++ [.vStr "<missing>"] else kv

/-- Models the formatting loop of `convertKVs`: every odd-indexed entry (the
value of each pair) is passed through the AutoFormatter. -/
def formatOdd : List GoVal → List GoVal
  | [] => []
  | [k] => [k]
  | k :: v :: rest => k :: autoFormatJSON v :: formatOdd rest

/-- Models `convertKVs` from `vlog.go`. -/
def convertKVs (kv : List GoVal) : List GoVal := formatOdd (padKVs kv)

/-- Observable state of a derived `slog.Logger`: the accumulated attribute
context, flat key/value list, oldest first. -/
structure ModelLogger where
  attrs : List GoVal

/-- Models the package-level `With` (and `SugaredLogger.With`): the derived
facade wraps `base.With(convertKVs(keysAndValues)...)`; the parent value is
not modified (copy-on-extend). -/
def With (s : ModelLogger) (kv : List GoVal) : ModelLogger :=
  ⟨s.attrs ++ convertKVs kv⟩

/-- Observable state of `slogSink`: the hierarchical name and the accumulated
key/value context (the shared `*slog.Logger` itself carries no per-sink state). -/
structure SlogSink where
  name : String
  kv : List GoVal

/-- Models `slogSink.WithValues`: a fresh sink whose kv list is a copy of the
parent's extended with the new pairs. -/
def SlogSink.withValues (s : SlogSink) (kvs : List GoVal) : SlogSink :=
  ⟨s.name, s.kv ++ kvs⟩

/-- Models `slogSink.WithName`: a fresh sink whose name chains with `/`. -/
def SlogSink.withName (s : SlogSink) (n : String) : SlogSink :=
  ⟨if s.name = "" then n else s.name ++ "/" ++ n, s.kv⟩

/-- The `log/slog` level constants. -/
def levelDebug : Int := -4

/-- The `slog.LevelInfo` constant. -/
def levelInfo : Int := 0

/-- The `slog.LevelWarn` constant. -/
def levelWarn : Int := 4

/-- The `slog.LevelError` constant. -/
def levelError : Int := 8

/-- The level names `slogLevelFromString` distinguishes from the default case. -/
def recognizedLevelNames : List String :=
  ["debug", "", "info", "warn", "warning", "error", "dpanic", "panic", "fatal"]

/-- ASCII lowercasing of one character, as `strings.ToLower` does on the
ASCII range (level names contain no other characters). -/
def asciiToLower (c : Char) : Char :=
  if 'A' ≤ c ∧ c ≤ 'Z' then Char.ofNat (c.toNat + 32) else c

/-- Models `strings.ToLower` on ASCII input. -/
def stringToLower (s : String) : String := String.mk (s.data.map asciiToLower)

/-- Models `slogLevelFromString` from `vlog.go`: lowercase the name, then the
switch over recognized names, defaulting to info. -/
def slogLevelFromString (lvl : String) : Int :=
  let l := stringToLower lvl
  if l = "debug" then levelDebug
  else if l = "" then levelInfo
  else if l = "info" then levelInfo
  else if l = "warn" then levelWarn
  else if l = "warning" then levelWarn
  else if l = "error" then levelError
  else if l = "dpanic" then levelError
  else if l = "panic" then levelError
  else if l = "fatal" then levelError
  else levelInfo

/-- Models `slog`'s standard handler enablement: a record level is enabled
when it is at or above the configured minimum level. -/
def handlerEnabled (minLevel lvl : Int) : Bool := decide (minLevel ≤ lvl)

/-- Models the logr-verbosity mapping in `slogSink.Enabled` and
`slogSink.Info`: verbosity 0 is info, any positive verbosity is debug. -/
def verbosityLevel (verbosity : Int) : Int :=
  if verbosity > 0 then levelDebug else levelInfo

/-- Models `slogSink.Enabled`: map the verbosity, then delegate to the
handler's own enablement check against the configured threshold. -/
def slogSinkEnabled (minLevel verbosity : Int) : Bool :=
  handlerEnabled minLevel (verbosityLevel verbosity)

/-- Index of the first occurrence of the two-byte pattern `[a, b]` in a byte
list, modelling `bytes.Index(l, []byte{a, b})` (`none` for Go's `-1`). -/
def charSeqIndex (a b : Char) : List Char → Option Nat
  | [] => none
  | [_] => none
  | x :: y :: rest =>
      if x = a ∧ y = b then some 0
      else (charSeqIndex a b (y :: rest)).map (· + 1)

/-- Containment of the two-byte newline-escape marker, modelling
`bytes.Contains(l, []byte{'\\', 'n'})`. -/
def containsNL (l : List Char) : Bool :=
  (charSeqIndex '\\' 'n' l).isSome

/-- Escape-aware scan for a closing quote: relative index of the first
unescaped `"` in the list, where a backslash escapes exactly the next byte. -/
def scanClose (esc : Bool) : List Char → Option Nat
  | [] => none
  | c :: rest =>
      if esc then (scanClose false rest).map (· + 1)
      else if c = '\\' then (scanClose true rest).map (· + 1)
      else if c = '"' then some 0
      else (scanClose false rest).map (· + 1)

/-- Models `findClosingQuote(b, start)` from `vlog.go`. -/
def findClosingQuote (b : List Char) (start : Nat) : Option Nat :=
  (scanClose false (b.drop start)).map (· + start)

/-- Byte-by-byte translation of an escaped segment in the `Escaped` state
machine of `unescapeMsgSegment`: after a backslash, `n` becomes a newline,
`t` a tab, and any other byte (including `\` and `"`) stands for itself. -/
def unescapeSeg (esc : Bool) : List Char → List Char
  | [] => []
  | c :: rest =>
      if esc then
        (if c = 'n' then '\n' else if c = 't' then '\t' else c) :: unescapeSeg false rest
      else if c = '\\' then unescapeSeg true rest
      else c :: unescapeSeg false rest

/-- Models `unescapeMsgSegment` from `vlog.go`. -/
def unescapeMsgSegment (seg : List Char) : List Char := unescapeSeg false seg

/-- The scan loop of `unescapeMultilineAttrs`: find the next `="`, find the
escape-aware closing quote (abandoning the whole remainder when there is
none), skip segments without the newline marker, otherwise splice in the
unescaped segment with the surrounding quotes dropped and continue just after
it.  Fuel bounds the iteration count; each iteration strictly decreases
`b.length - cursor`, so `b.length + 1` iterations always suffice. -/
def unescapeLoopF : Nat → List Char → Nat → List Char
  | 0, b, _ => b
  | f + 1, b, cursor =>
    if cursor < b.length then
      match charSeqIndex '=' '"' (b.drop cursor) with
      | none => b
      | some rel =>
        match findClosingQuote b (rel + cursor + 2) with
        | none => b
        | some e =>
          let segment := (b.take e).drop (rel + cursor + 2)
          if containsNL segment then
            let expanded := unescapeMsgSegment segment
            unescapeLoopF f (b.take (rel + cursor + 1) ++ expanded ++ b.drop (e + 1))
              (rel + cursor + 1 + expanded.length)
          else
            unescapeLoopF f b (e + 1)
    else b

/-- Models `unescapeMultilineAttrs` from `vlog.go` (the EscapeProcessor):
fast path returns the input unchanged when it contains no `\n` marker. -/
def unescapeMultilineAttrs (b : List Char) : List Char :=
  if containsNL b then unescapeLoopF (b.length + 1) b 0 else b

/-- The ANSI reset code. -/
def ansiReset : String := "\x1b[0m"

/-- Models `levelColorSlog` from `vlog.go`: blue for debug and below, green
for info band, yellow for warn band, red for error and above. -/
def levelColorSlog (lvl : Int) : String :=
  if lvl ≤ levelDebug then "\x1b[34m"
  else if lvl < levelWarn then "\x1b[32m"
  else if lvl < levelError then "\x1b[33m"
  else "\x1b[31m"

/-- Models `applyMultilineColor` from `vlog.go`: strip a trailing newline,
wrap every line in color/reset (reset immediately before each line break),
and restore the trailing newline. -/
def applyMultilineColor (b : List Char) (color : List Char) : List Char :=
  if b.isEmpty then b
  else
    let hadNL := b.getLast? = some '\n'
    let body := if hadNL then b.dropLast else b
    let lines := body.splitOn '\n'
    let out := List.intercalate ['\n'] (lines.map (fun ln => color ++ ln ++ ansiReset.data))
    if hadNL then out ++ ['\n'] else out

/-- Models `slog.Level.String()`: the band name plus a signed offset when the
level is between the named constants. -/
def levelString (lvl : Int) : String :=
  let suffix := fun (d : Int) => if d = 0 then "" else (if d > 0 then "+" ++ toString d else toString d)
  if lvl < levelInfo then "DEBUG" ++ suffix (lvl - levelDebug)
  else if lvl < levelWarn then "INFO" ++ suffix (lvl - levelInfo)
  else if lvl < levelError then "WARN" ++ suffix (lvl - levelWarn)
  else "ERROR" ++ suffix (lvl - levelError)

/-- Models `slog`'s text-handler quoting test for keys and values: quote when
empty or when any byte is a space, a quote, an equals sign, or non-printing. -/
def needsQuoting (s : String) : Bool :=
  s.data.isEmpty || s.data.any (fun c => c = ' ' ∨ c = '"' ∨ c = '=' ∨ c.toNat < 32 ∨ c.toNat = 127)

/-- Models `strconv.Quote`'s escaping of a single byte. -/
def quoteChar (c : Char) : String :=
  if c = '"' then "\\\""
  else if c = '\\' then "\\\\"
  else if c = '\n' then "\\n"
  else if c = '\t' then "\\t"
  else if c = '\r' then "\\r"
  else if c.toNat < 32 then "\\x" ++ toHex2 c.toNat
  else String.singleton c

/-- Models `strconv.Quote`. -/
def goQuote (s : String) : String :=
  "\"" ++ String.join (s.data.map quoteChar) ++ "\""

/-- A text-handler field is quoted only when needed. -/
def quoteIfNeeded (s : String) : String :=
  if needsQuoting s then goQuote s else s

/-- Models `slog`'s rendering of an attribute value appended by `slog.Any`:
strings as-is, integers in decimal, booleans, `nil` as `<nil>`, a
`prettyValue` through its `LogValue`/`String` resolution, and other values
through `fmt`'s verbose verb. -/
def attrValueString : GoVal → String
  | .vStr s => s
  | .vInt n => toString n
  | .vBool b => if b then "true" else "false"
  | .vNull => "<nil>"
  | .vPretty inner => prettyValueString (.vPretty inner)
  | v => goToString v

/-- Logger configuration, mirroring `vlog.Options` after `Setup` resolved the
level string (`level` is the minimum slog level; `json`, `addCaller`,
`colorize` and `unescape` mirror `JSON`, `AddCaller`, `ColorizeLine` and
`UnescapeMultiline`). -/
structure Config where
  level : Int
  json : Bool
  addCaller : Bool
  colorize : Bool
  unescape : Bool

/-- Output state: the lines written to the process output stream, in order. -/
structure LogState where
  out : List String

/-- Models `shortenPath` from `vlog.go`: last two slash-separated components. -/
def shortenPath (p : String) : String :=
  if p = "" then p
  else
    let parts := p.splitOn "/"
    if parts.length ≤ 2 then p
    else String.intercalate "/" (parts.drop (parts.length - 2))

/-- Models the caller attribute added by `writeRecord`/`writeRecordWithAttrs`:
present only when `addCaller` is set and the resolver (an external stack walk,
passed in here as an oracle) produced a nonempty file. -/
def callerAttrs (cfg : Config) (caller : Option (String × Nat)) : List (String × GoVal) :=
  match caller with
  | some (file, line) =>
      if cfg.addCaller ∧ file ≠ "" then
        [("caller", .vStr (shortenPath file ++ ":" ++ toString line))]
      else []
  | none => []

/-- Models the attribute-pairing loop of `writeRecordWithAttrs` over the
even-length output of `convertKVs`. -/
def attrPairs : List GoVal → List (String × GoVal)
  | k :: v :: rest => (goKey k, v) :: attrPairs rest
  | _ => []

/-- Models the `slog` text handler's line for one record:
`time=... level=... msg=... key=value ...` with per-field quoting, newline
terminated.  The timestamp is the RFC3339 text the `ReplaceAttr` hook
produced, passed in as `t`. -/
def textLine (t : String) (lvl : Int) (msg : String) (attrs : List (String × GoVal)) : String :=
  "time=" ++ quoteIfNeeded t ++ " level=" ++ quoteIfNeeded (levelString lvl) ++
    " msg=" ++ quoteIfNeeded msg ++
    attrs.foldl (fun acc kv => acc ++ " " ++ quoteIfNeeded kv.1 ++ "=" ++ quoteIfNeeded (attrValueString kv.2)) "" ++
    "\n"

/-- Models the `slog` JSON handler's value rendering: a `prettyValue` resolves
through `LogValue` to its pretty string; marshal failures render as an
`!ERROR:` string, as `slog` does. -/
def jsonAttrValue : GoVal → String
  | .vStr s => jsonQuote s
  | .vInt n => toString n
  | .vBool b => if b then "true" else "false"
  | .vNull => "null"
  | .vPretty inner => jsonQuote (prettyValueString (.vPretty inner))
  | v =>
    match jsonMarshal v with
    | .ok s => s
    | .error e => jsonQuote ("!ERROR:" ++ e)

/-- Models the `slog` JSON handler's line for one record. -/
def jsonLine (t : String) (lvl : Int) (msg : String) (attrs : List (String × GoVal)) : String :=
  "\x7b\"time\":" ++ jsonQuote t ++ ",\"level\":" ++ jsonQuote (levelString lvl) ++
    ",\"msg\":" ++ jsonQuote msg ++
    attrs.foldl (fun acc kv => acc ++ "," ++ jsonQuote kv.1 ++ ":" ++ jsonAttrValue kv.2) "" ++
    "\x7d\n"

/-- Models the encoder choice made in `Setup` plus the post-processing done in
`plainTextHandler.Handle` / `colorTextHandler.Handle`: JSON mode renders one
JSON record; text mode renders the text line, optionally unescapes embedded
multi-line values, and the colorized handler then wraps every line in
color/reset. -/
def renderLine (cfg : Config) (t : String) (lvl : Int) (msg : String)
    (attrs : List (String × GoVal)) : String :=
  if cfg.json then jsonLine t lvl msg attrs
  else
    let line := textLine t lvl msg attrs
    let line := if cfg.unescape then String.mk (unescapeMultilineAttrs line.data) else line
    if cfg.colorize then String.mk (applyMultilineColor line.data (levelColorSlog lvl).data)
    else line

/-- Models `writeRecord`: enablement is checked before any caller resolution
or formatting work; an enabled record is rendered and written as one line. -/
def writeRecordM (cfg : Config) (t : String) (caller : Option (String × Nat))
    (st : LogState) (lvl : Int) (msg : String) : LogState :=
  if handlerEnabled cfg.level lvl then
    ⟨st.out ++ [renderLine cfg t lvl msg (callerAttrs cfg caller)]⟩
  else st

/-- Models `writeRecordWithAttrs`: like `writeRecordM` but with the key/value
tail converted by `convertKVs` and paired into attributes after the caller. -/
def writeRecordWithAttrsM (cfg : Config) (t : String) (caller : Option (String × Nat))
    (st : LogState) (lvl : Int) (msg : String) (keysAndValues : List GoVal) : LogState :=
  if handlerEnabled cfg.level lvl then
    ⟨st.out ++ [renderLine cfg t lvl msg
      (callerAttrs cfg caller ++ attrPairs (convertKVs keysAndValues))]⟩
  else st

/-- Models `logArgs` from `vlog.go`: an empty argument list returns at once;
otherwise the first argument is the message (via `fmt.Sprint`) and any
remaining arguments are key/value pairs. -/
def logArgsM (cfg : Config) (t : String) (caller : Option (String × Nat))
    (st : LogState) (lvl : Int) (args : List GoVal) : LogState :=
  match args with
  | [] => st
  | a :: rest =>
    if rest.isEmpty then writeRecordM cfg t caller st lvl (goSprint [a])
    else writeRecordWithAttrsM cfg t caller st lvl (goSprint [a]) rest

/-- The package-level `Debug`. -/
def DebugM (cfg : Config) (t : String) (caller : Option (String × Nat))
    (st : LogState) (args : List GoVal) : LogState :=
  logArgsM cfg t caller st levelDebug args

/-- The package-level `Info`. -/
def InfoM (cfg : Config) (t : String) (caller : Option (String × Nat))
    (st : LogState) (args : List GoVal) : LogState :=
  logArgsM cfg t caller st levelInfo args

/-- The package-level `Warn`. -/
def WarnM (cfg : Config) (t : String) (caller : Option (String × Nat))
    (st : LogState) (args : List GoVal) : LogState :=
  logArgsM cfg t caller st levelWarn args

/-- The package-level `Error`. -/
def ErrorM (cfg : Config) (t : String) (caller : Option (String × Nat))
    (st : LogState) (args : List GoVal) : LogState :=
  logArgsM cfg t caller st levelError args

/-- Substring test over byte lists (`strings.Contains`). -/
def listContainsSub (pat : List Char) : List Char → Bool
  | [] => pat.isEmpty
  | c :: rest => pat.isPrefixOf (c :: rest) || listContainsSub pat rest

/-- Substring test over strings. -/
def containsStr (s pat : String) : Bool := listContainsSub pat.data s.data

/-- C3: any input without the two-byte newline-escape marker is returned
byte-identical by the EscapeProcessor, via the containment fast path. -/
theorem escape_clean_identity (l : List Char) (h : containsNL l = false) :
    unescapeMultilineAttrs l = l := by
  simp [unescapeMultilineAttrs, h]

/-- Witness for `escape_clean_identity` at a concrete clean line. -/
theorem escape_clean_identity_witness :
    containsNL ("time=T level=INFO msg=hello").data = false
    ∧ unescapeMultilineAttrs ("time=T level=INFO msg=hello").data
        = ("time=T level=INFO msg=hello").data :=
  ⟨by decide, escape_clean_identity _ (by decide)⟩

/-- C4: when the escape-aware scan finds a `="` occurrence but no closing
quote for it, the loop abandons that occurrence and returns the line as it
stands, leaving everything from the occurrence onward unchanged; the
transform is a total function and never panics. -/
theorem escape_malformed_abandons (f : Nat) (b : List Char) (cursor rel : Nat)
    (hc : cursor < b.length)
    (hidx : charSeqIndex '=' '"' (b.drop cursor) = some rel)
    (hq : findClosingQuote b (rel + cursor + 2) = none) :
    unescapeLoopF (f + 1) b cursor = b := by
  simp [unescapeLoopF, hc, hidx, hq]

/-- Witness for `escape_malformed_abandons` on a line whose quoted value
never closes. -/
theorem escape_malformed_abandons_witness :
    0 < ("a=\"\\n").data.length
    ∧ charSeqIndex '=' '"' (("a=\"\\n").data.drop 0) = some 1
    ∧ findClosingQuote ("a=\"\\n").data 3 = none
    ∧ unescapeLoopF 5 ("a=\"\\n").data 0 = ("a=\"\\n").data :=
  ⟨by decide, by decide, by decide,
    escape_malformed_abandons 4 _ 0 1 (by decide) (by decide) (by decide)⟩

/-- C2: the EscapeProcessor expands the escaped multi-line value of `body`
in place, translating the two-state escape encoding to real newlines, tabs,
quotes and backslashes, and drops the surrounding quotes of the expanded
segment while leaving the rest of the line (including `msg="ok"`) intact. -/
theorem escape_unescape_example :
    unescapeMultilineAttrs ("time=T level=D msg=\"ok\" body=\"\x7b\\n  \\\"a\\\": 1\\n\x7d\"").data
      = ("time=T level=D msg=\"ok\" body=\x7b\n  \"a\": 1\n\x7d").data := by
  decide

/-- C5: the level-name mapping is total with info as the default for every
unrecognized name, is case-insensitive on the recognized names, sends
`warn`/`warning` to the same severity, and collapses `error`, `dpanic`,
`panic` and `fatal` onto the error severity. -/
theorem level_mapping :
    (∀ s : String, stringToLower s ∉ recognizedLevelNames → slogLevelFromString s = levelInfo)
    ∧ slogLevelFromString "debug" = levelDebug
    ∧ slogLevelFromString "" = levelInfo
    ∧ slogLevelFromString "info" = levelInfo
    ∧ slogLevelFromString "warn" = levelWarn
    ∧ slogLevelFromString "warning" = levelWarn
    ∧ slogLevelFromString "WARNING" = slogLevelFromString "warn"
    ∧ slogLevelFromString "error" = levelError
    ∧ slogLevelFromString "dpanic" = levelError
    ∧ slogLevelFromString "panic" = levelError
    ∧ slogLevelFromString "fatal" = levelError
    ∧ slogLevelFromString "DEBUG" = levelDebug := by
  refine ⟨?_, by decide, by decide, by decide, by decide, by decide, by decide,
    by decide, by decide, by decide, by decide, by decide⟩
  intro s h
  simp only [recognizedLevelNames, List.mem_cons, List.not_mem_nil, or_false, not_or] at h
  obtain ⟨h1, h2, h3, h4, h5, h6, h7, h8, h9⟩ := h
  simp [slogLevelFromString, h1, h2, h3, h4, h5, h6, h7, h8, h9]

/-- Witness for `level_mapping` at an unrecognized level name. -/
theorem level_mapping_witness :
    stringToLower "not-a-level" ∉ recognizedLevelNames
    ∧ slogLevelFromString "not-a-level" = levelInfo :=
  ⟨by decide, level_mapping.1 "not-a-level" (by decide)⟩

/-- C6: `slogSink.Enabled` holds exactly when the severity mapped from the
verbosity (0 to info, positive to debug) is at or above the configured
threshold; with threshold info only verbosity 0 is enabled, with threshold
debug both are. -/
theorem sink_enabled :
    (∀ minLevel verbosity : Int,
      slogSinkEnabled minLevel verbosity = true ↔ minLevel ≤ verbosityLevel verbosity)
    ∧ slogSinkEnabled (slogLevelFromString "info") 0 = true
    ∧ slogSinkEnabled (slogLevelFromString "info") 1 = false
    ∧ slogSinkEnabled (slogLevelFromString "debug") 0 = true
    ∧ slogSinkEnabled (slogLevelFromString "debug") 1 = true := by
  refine ⟨?_, by decide, by decide, by decide, by decide⟩
  intro minLevel verbosity
  simp [slogSinkEnabled, handlerEnabled]

/-- C8: `WithValues` yields a sink whose kv list is the parent's extended by
the new pairs with the name kept, and `WithName` yields a sink whose name is
the slash-joined chain with the kv list kept; the parent's record fields are
read, never written (the derived values are fresh structures). -/
theorem sink_derivation (s : SlogSink) (kvs : List GoVal) (n : String) :
    (s.withValues kvs).kv = s.kv ++ kvs
    ∧ (s.withValues kvs).name = s.name
    ∧ (s.withName n).name = (if s.name = "" then n else s.name ++ "/" ++ n)
    ∧ (s.withName n).kv = s.kv :=
  ⟨rfl, rfl, rfl, rfl⟩

/-- C9: whenever structured serialization of a value fails, the pretty-print
primitive still returns normally, producing the `%v` rendering of the value
with the serialization error appended in parentheses. -/
theorem pretty_fallback (v : GoVal) (e : String)
    (h : jsonMarshalIndentGo v "  " = Except.error e) :
    Serialize.Pretty v = goToString v ++ " (serialize error: " ++ e ++ ")" := by
  have h3 : stringsRepeat " " (Int.toNat (if (2 : Int) ≤ 0 then 2 else 2)) = "  " := by decide
  unfold Serialize.Pretty Serialize.JSONIndentN Serialize.JSONIndent
  rw [h3, h]
  rfl

/-- Witness for `pretty_fallback` on a channel-valued input. -/
theorem pretty_fallback_witness :
    jsonMarshalIndentGo (GoVal.vChan "chan int" "0xc000010000") "  "
        = Except.error "json: unsupported type: chan int"
    ∧ Serialize.Pretty (GoVal.vChan "chan int" "0xc000010000")
        = goToString (GoVal.vChan "chan int" "0xc000010000") ++
            " (serialize error: " ++ "json: unsupported type: chan int" ++ ")" :=
  ⟨rfl, pretty_fallback _ "json: unsupported type: chan int" rfl⟩

/-- C10: calling any package-level logging function with an empty argument
list is a no-op at every severity: the state (hence the output stream) is
returned unchanged, before any record construction. -/
theorem empty_args_noop (cfg : Config) (t : String) (caller : Option (String × Nat))
    (st : LogState) :
    DebugM cfg t caller st [] = st
    ∧ InfoM cfg t caller st [] = st
    ∧ WarnM cfg t caller st [] = st
    ∧ ErrorM cfg t caller st [] = st :=
  ⟨rfl, rfl, rfl, rfl⟩

/-- The formatting loop preserves the list length. -/
theorem formatOdd_length (l : List GoVal) : (formatOdd l).length = l.length := by
  induction l using formatOdd.induct <;> simp [formatOdd, *]

/-- The formatting loop maps every odd-indexed entry through the AutoFormatter. -/
theorem formatOdd_get_odd (i : Nat) :
    ∀ l : List GoVal, (formatOdd l).get? (2 * i + 1) = (l.get? (2 * i + 1)).map autoFormatJSON := by
  induction i with
  | zero =>
    intro l
    match l with
    | [] => rfl
    | [k] => rfl
    | k :: v :: rest => rfl
  | succ n ih =>
    intro l
    have h2 : 2 * (n + 1) + 1 = 2 * n + 1 + 2 := by ring
    match l with
    | [] => rw [h2]; rfl
    | [k] => rw [h2]; rfl
    | k :: v :: rest =>
      rw [h2]
      show (formatOdd rest).get? (2 * n + 1) = (rest.get? (2 * n + 1)).map autoFormatJSON
      exact ih rest

/-- The formatting loop leaves every even-indexed entry (the keys) unchanged. -/
theorem formatOdd_get_even (i : Nat) :
    ∀ l : List GoVal, (formatOdd l).get? (2 * i) = l.get? (2 * i) := by
  induction i with
  | zero =>
    intro l
    match l with
    | [] => rfl
    | [k] => rfl
    | k :: v :: rest => rfl
  | succ n ih =>
    intro l
    have h2 : 2 * (n + 1) = 2 * n + 2 := by ring
    match l with
    | [] => rw [h2]; rfl
    | [k] => rw [h2]; rfl
    | k :: v :: rest =>
      rw [h2]
      show (formatOdd rest).get? (2 * n) = rest.get? (2 * n)
      exact ih rest

/-- C7: `With(keysAndValues...)` normalizes an odd-length list by appending
the `"<missing>"` placeholder, passes exactly the odd-indexed entries (the
pair values) through the AutoFormatter while keeping the keys, and produces a
derived facade whose attribute context is the parent's extended by the
converted list — the parent value itself enters only by reading. -/
theorem with_kvs_normalization (s : ModelLogger) (kv : List GoVal) :
    (convertKVs kv).length % 2 = 0
    ∧ (∀ i : Nat, (convertKVs kv).get? (2 * i + 1) = ((padKVs kv).get? (2 * i + 1)).map autoFormatJSON)
    ∧ (∀ i : Nat, (convertKVs kv).get? (2 * i) = (padKVs kv).get? (2 * i))
    ∧ (kv.length % 2 = 1 → padKVs kv = kv ++ [GoVal.vStr "<missing>"])
    ∧ (kv.length % 2 = 0 → padKVs kv = kv)
    ∧ (With s kv).attrs = s.attrs ++ convertKVs kv := by
  refine ⟨?_, fun i => formatOdd_get_odd i (padKVs kv),
    fun i => formatOdd_get_even i (padKVs kv),
    fun h => by simp [padKVs, h],
    fun h => by simp [padKVs]; omega,
    rfl⟩
  unfold convertKVs
  rw [formatOdd_length]
  unfold padKVs
  split
  · rename_i h
    simp only [List.length_append, List.length_cons, List.length_nil]
    omega
  · rename_i h
    omega

/-- Witness for `with_kvs_normalization` at an odd-length concrete list. -/
theorem with_kvs_normalization_witness :
    ([GoVal.vStr "a", GoVal.vInt 1, GoVal.vStr "b"] : List GoVal).length % 2 = 1
    ∧ padKVs [GoVal.vStr "a", GoVal.vInt 1, GoVal.vStr "b"]
        = [GoVal.vStr "a", GoVal.vInt 1, GoVal.vStr "b"] ++ [GoVal.vStr "<missing>"] :=
  ⟨by decide,
    (with_kvs_normalization ⟨[]⟩ [GoVal.vStr "a", GoVal.vInt 1, GoVal.vStr "b"]).2.2.2.1 (by decide)⟩

/-- The configuration of the end-to-end scenario:
`{level: "debug", colorize: false, json: false}` with the remaining options
at their defaults. -/
def cfgScenario : Config :=
  ⟨slogLevelFromString "debug", false, false, false, false⟩

/-- The line the scenario produces (timestamp text fixed to `T`). -/
def lineScenario : String := "time=T level=INFO msg=x 42=<missing>\n"

/-- C1 counterexample: in the scenario configuration, `Info("x", 42)` does
not concatenate the whole argument list into the message — the emitted line
does not even contain the concatenated text `fmt.Sprint("x", 42)`, because
`logArgs` treats the trailing `42` as a key with the `"<missing>"`
placeholder value. -/
theorem info_args_not_concatenated :
    (InfoM cfgScenario "T" none ⟨[]⟩ [GoVal.vStr "x", GoVal.vInt 42]).out = [lineScenario]
    ∧ containsStr lineScenario (goSprint [GoVal.vStr "x", GoVal.vInt 42]) = false := by
  constructor
  · decide
  · decide

/-- C1 (amended): the package-level facade functions treat the first argument
as the message and any further arguments as key/value pairs (odd tails get
the `"<missing>"` placeholder); in the scenario configuration, `Info("x",
42)` emits a line that contains `level=INFO`, the message field `msg=x`, the
pair `42=<missing>`, and no ANSI escape byte. -/
theorem info_scenario_line :
    (InfoM cfgScenario "T" none ⟨[]⟩ [GoVal.vStr "x", GoVal.vInt 42]).out = [lineScenario]
    ∧ containsStr lineScenario "level=INFO" = true
    ∧ containsStr lineScenario "msg=x" = true
    ∧ containsStr lineScenario "42=<missing>" = true
    ∧ lineScenario.data.all (fun c => c != '\x1b') = true := by
  refine ⟨by decide, by decide, by decide, by decide, by decide⟩
